import Mathlib

/-!
Shallow embedding of `src/RFID_Authentication_System.ino`: the authentication
state machine of a two-factor (RFID card + PIN) access controller.  Pure data
and control flow of `loop()` are translated directly; the hardware
collaborators (card reader, keypad, LCD, LEDs, buzzer) are modelled as an
input record (what the hardware would report) and an output event trace (the
side effects the controller performs, in order).
-/

namespace RFIDAuth

/-- Source constant `const unsigned long PIN_TIMEOUT = 7500;`: the PIN-entry
timeout in milliseconds. -/
def PIN_TIMEOUT : Nat := 7500

/-- Source constant `const char pinAmount = 4;`: number of PIN keys
collected. -/
def pinAmount : Nat := 4

/-- Source table `char keys[ROWS][COLS]`: the 4×4 keypad matrix. -/
def keys : List (List Char) :=
  [['1', '2', '3', 'A'],
   ['4', '5', '6', 'B'],
   ['7', '8', '9', 'C'],
   ['*', '0', '#', 'D']]

/-- Source type `struct User { byte cardIDS[4]; char pins[5]; char* name; }`.
The 4 UID bytes are modelled as naturals `< 256`; the null-terminated
`pins` string is modelled by its character content. -/
structure User where
  cardIDS : List Nat
  pins : List Char
  name : String
deriving DecidableEq, Repr

/-- Source table `User users[]`: the two provisioned identity records. -/
def users : List User :=
  [⟨[0xB3, 0x29, 0xD7, 0x5], ['1', '2', '3', '4'], "Alice"⟩,
   ⟨[0x5E, 0xEE, 0x9C, 0x4], ['A', 'B', 'C', 'D'], "Bob"⟩]

/-- The linear scan of `loop()` lines 132–141: first record whose 4 stored
UID bytes `memcmp`-equal the scanned bytes, else none (`rowStorer == -1`). -/
def findUser : List User → List Nat → Option User
  | [], _ => none
  | u :: rest, s => if u.cardIDS = s then some u else findUser rest s

/-- The two LED indicator outputs (`RED_LED`, `GREEN_LED`). -/
inductive Led
  | red
  | green
deriving DecidableEq, Repr

/-- One observable side effect performed by `loop()`, in program order.
Serial prints are omitted: they are debug output, not user feedback. -/
inductive Ev
  | lcdClear
  | lcdPrint (s : String)
  | lcdSetCursor (col row : Nat)
  | toneOn (freq : Nat)
  | toneOff
  | ledWrite (l : Led) (high : Bool)
  | delay (ms : Nat)
deriving DecidableEq, Repr

/-- Result of the PIN-collection loop (lines 181–215). `exhausted` marks a
finite poll trace that ended before 4 keys or a timeout — the device itself
would keep polling forever, so no run of the real loop produces it. -/
inductive PinEntryResult
  | entered (buf : List Char)
  | timedOut
  | exhausted
deriving DecidableEq, Repr

/-- Feedback emitted on each accepted key press (lines 207–211). -/
def keyFeedback : List Ev :=
  [.lcdPrint "*", .toneOn 1500, .delay 50, .toneOff]

/-- The PIN-collection loop, lines 181–215.  Each trace element `(t, k)` is
one iteration of the inner `while`: `t` is the elapsed `millis() - startTime`
at the timeout check, `k` the key returned by the `KEYPAD.getKey()` poll that
follows it (`none` = `NO_KEY`).  The check `t > PIN_TIMEOUT` precedes the
poll, exactly as in the source; a key press appends to the buffer and emits
`keyFeedback`; collecting the 4th key exits with no further check. -/
def readPinAux : List (Nat × Option Char) → List Char → PinEntryResult × List Ev
  | [], _ => (.exhausted, [])
  | (t, k) :: rest, buf =>
    if t > PIN_TIMEOUT then (.timedOut, [])
    else
      match k with
      | none => readPinAux rest buf
      | some c =>
        if buf.length + 1 = pinAmount then (.entered (buf ++ [c]), keyFeedback)
        else
          ((readPinAux rest (buf ++ [c])).1,
            keyFeedback ++ (readPinAux rest (buf ++ [c])).2)

/-- PIN entry starting from the empty buffer, as `loop()` does. -/
def readPinTrace (tr : List (Nat × Option Char)) : PinEntryResult :=
  (readPinAux tr []).1

/-- Tone on successful card read, lines 118–120. -/
def cardReadFeedback : List Ev := [.toneOn 1800, .delay 100, .toneOff]

/-- Unauthorized-card feedback, lines 148–157. -/
def rejectedCardFeedback : List Ev :=
  [.lcdClear, .lcdPrint "UNAUTHORIZED", .toneOn 200, .ledWrite .red true,
   .delay 800, .toneOff, .delay 2500, .ledWrite .red false, .lcdClear]

/-- Greeting and PIN prompt, lines 170–174. -/
def greetingFeedback (n : String) : List Ev :=
  [.lcdClear, .lcdPrint "Hello ", .lcdPrint n, .lcdSetCursor 0 1,
   .lcdPrint "Enter Pin: "]

/-- Session-timeout feedback, lines 190–199. -/
def timeoutFeedback : List Ev :=
  [.lcdClear, .lcdPrint "SESSION EXPIRED", .toneOn 200, .ledWrite .red true,
   .delay 800, .toneOff, .delay 1000, .ledWrite .red false, .lcdClear]

/-- Wrong-PIN feedback, lines 231–241. -/
def deniedFeedback : List Ev :=
  [.lcdClear, .lcdPrint "ACCESS DENIED", .toneOn 200, .ledWrite .red true,
   .delay 800, .toneOff, .delay 700, .ledWrite .red false, .delay 1000,
   .lcdClear]

/-- Access-granted feedback, lines 249–261. -/
def grantedFeedback : List Ev :=
  [.lcdClear, .lcdPrint "ACCESS GRANTED", .toneOn 1500, .ledWrite .green true,
   .delay 150, .toneOn 2000, .delay 150, .toneOff, .delay 1000,
   .ledWrite .green false, .lcdClear]

/-- Terminal disposition of one `loop()` invocation.  `idleNoCard` and
`idleReadFail` are the two early `return`s that leave the controller idle;
`incomplete` corresponds to `PinEntryResult.exhausted` (finite-trace artefact
of the model, not a behaviour of the device). -/
inductive Outcome
  | idleNoCard
  | idleReadFail
  | rejectedCard
  | timedOut
  | rejectedPin
  | accepted
  | incomplete
deriving DecidableEq, Repr

/-- The four terminal per-attempt outcomes of the spec's state machine. -/
def terminal : Outcome → Bool
  | .accepted => true
  | .rejectedCard => true
  | .rejectedPin => true
  | .timedOut => true
  | _ => false

/-- What the hardware reports during one `loop()` invocation: whether
`PICC_IsNewCardPresent()` fires, whether `PICC_ReadCardSerial()` succeeds,
the UID bytes the reader holds, and the keypad poll trace. -/
structure LoopInput where
  cardPresent : Bool
  readOk : Bool
  uid : List Nat
  keyTrace : List (Nat × Option Char)

/-- Lines 123–129: `scannedArray[i] = RFID.uid.uidByte[i]` for `i < 4` —
exactly the first 4 UID bytes, whatever the card's UID length. -/
def scannedId (uid : List Nat) : List Nat := uid.take 4

/-- One invocation of `loop()` (lines 101–262): returns the terminal
disposition and the ordered trace of side effects. -/
def loopRun (inp : LoopInput) : Outcome × List Ev :=
  if inp.cardPresent = false then (.idleNoCard, [])
  else if inp.readOk = false then (.idleReadFail, [])
  else
    match findUser users (scannedId inp.uid) with
    | none => (.rejectedCard, cardReadFeedback ++ rejectedCardFeedback)
    | some u =>
      let p := readPinAux inp.keyTrace []
      let pre := cardReadFeedback ++ greetingFeedback u.name ++ p.2
      match p.1 with
      | .timedOut => (.timedOut, pre ++ timeoutFeedback)
      | .exhausted => (.incomplete, pre)
      | .entered buf =>
        if buf = u.pins then (.accepted, pre ++ grantedFeedback)
        else (.rejectedPin, pre ++ deniedFeedback)

/-- Record for Alice, `users[0]`. -/
def alice : User := ⟨[0xB3, 0x29, 0xD7, 0x5], ['1', '2', '3', '4'], "Alice"⟩

/-- Record for Bob, `users[1]`. -/
def bob : User := ⟨[0x5E, 0xEE, 0x9C, 0x4], ['A', 'B', 'C', 'D'], "Bob"⟩

/-- Keys delivered by a poll trace, in order (the `NO_KEY` polls dropped). -/
def keysIn (tr : List (Nat × Option Char)) : List Char := tr.filterMap Prod.snd

/-- A poll whose timeout check happens at or before the 7500 ms boundary. -/
def inWindow (e : Nat × Option Char) : Bool := decide (e.1 ≤ PIN_TIMEOUT)

/-- The two indicator outputs.  Both start low: `setup()` configures the pins
as outputs and never drives them high. -/
structure LedState where
  red : Bool
  green : Bool
deriving DecidableEq, Repr

/-- Effect of one event on the indicator outputs. -/
def ledStep (s : LedState) : Ev → LedState
  | .ledWrite .red b => { s with red := b }
  | .ledWrite .green b => { s with green := b }
  | _ => s

/-- Indicator outputs after a sequence of events. -/
def ledRun (s : LedState) (evs : List Ev) : LedState := evs.foldl ledStep s

/-- At most one indicator asserted. -/
def ledOk (s : LedState) : Bool := !(s.red && s.green)

/-- Invariant check: `ledOk` holds at the start, after every event, and at
the end. -/
def ledInv : LedState → List Ev → Bool
  | s, [] => ledOk s
  | s, e :: evs => ledOk s && ledInv (ledStep s e) evs

/-- Whether an event touches an indicator output. -/
def isLedEv : Ev → Bool
  | .ledWrite _ _ => true
  | _ => false

/-- No event in the list touches an indicator output. -/
def ledFree (evs : List Ev) : Bool := evs.all fun e => !(isLedEv e)

/-- Event stream of a whole sequence of `loop()` invocations. -/
def allEvents (inps : List LoopInput) : List Ev :=
  (inps.map fun i => (loopRun i).2).flatten

example : findUser users [0xB3, 0x29, 0xD7, 0x5] = some alice := by decide

example : findUser users [0x01, 0x02, 0x03, 0x04] = none := by decide

example :
    (loopRun ⟨true, true, [0xB3, 0x29, 0xD7, 0x5],
      [(0, some '1'), (100, some '2'), (200, some '3'), (300, some '4')]⟩).1
      = .accepted := by decide

example :
    (loopRun ⟨true, true, [0xB3, 0x29, 0xD7, 0x5],
      [(0, some '1'), (100, some '2'), (200, some '3'), (300, some '5')]⟩).1
      = .rejectedPin := by decide

example :
    (loopRun ⟨true, true, [0x5E, 0xEE, 0x9C, 0x4],
      [(0, some '1'), (100, none), (7600, some '2')]⟩).1 = .timedOut := by
  decide

/-! ### Lemmas about the identity-store scan -/

/-- A record returned by the linear scan is in the store and its stored
fingerprint equals the scanned bytes. -/
theorem findUser_mem (l : List User) (F : List Nat) (u : User)
    (h : findUser l F = some u) : u ∈ l ∧ u.cardIDS = F := by
  induction l with
  | nil => simp [findUser] at h
  | cons v rest ih =>
    rw [findUser] at h
    by_cases hv : v.cardIDS = F
    · rw [if_pos hv] at h
      obtain rfl := Option.some.inj h
      exact ⟨List.mem_cons_self _ _, hv⟩
    · rw [if_neg hv] at h
      obtain ⟨hm, he⟩ := ih h
      exact ⟨List.mem_cons_of_mem _ hm, he⟩

/-- If no record's fingerprint equals the scanned bytes, the scan yields
none. -/
theorem findUser_eq_none (l : List User) (F : List Nat)
    (h : ∀ u ∈ l, u.cardIDS ≠ F) : findUser l F = none := by
  induction l with
  | nil => rfl
  | cons v rest ih =>
    rw [findUser, if_neg (h v (List.mem_cons_self _ _))]
    exact ih fun w hw => h w (List.mem_cons_of_mem _ hw)

/-! ### Lemmas about the PIN-collection loop -/

/-- A buffer reported by `entered` always has exactly `pinAmount` keys. -/
theorem readPinAux_entered_length (tr : List (Nat × Option Char)) :
    ∀ buf b, (readPinAux tr buf).1 = .entered b → b.length = pinAmount := by
  induction tr with
  | nil => intro buf b h; simp [readPinAux] at h
  | cons e rest ih =>
    intro buf b h
    obtain ⟨t, k⟩ := e
    by_cases ht : t > PIN_TIMEOUT
    · simp [readPinAux, ht] at h
    · cases k with
      | none =>
        rw [readPinAux, if_neg ht] at h
        exact ih buf b h
      | some c =>
        rw [readPinAux, if_neg ht] at h
        by_cases hl : buf.length + 1 = pinAmount
        · simp only [hl, if_pos rfl] at h
          cases h
          simpa using hl
        · simp only [if_neg hl] at h
          exact ih (buf ++ [c]) b h

/-- If fewer keys than the buffer still needs arrive at checks within the
window, and some check falls beyond the window, the loop times out. -/
theorem readPinAux_timedOut_of_few_keys (tr : List (Nat × Option Char)) :
    ∀ buf, (keysIn (tr.takeWhile inWindow)).length + buf.length < pinAmount →
      tr.takeWhile inWindow ≠ tr →
      (readPinAux tr buf).1 = .timedOut := by
  induction tr with
  | nil => intro buf _ hne; simp at hne
  | cons e rest ih =>
    intro buf hfew hne
    obtain ⟨t, k⟩ := e
    by_cases hw : inWindow (t, k)
    · have ht : ¬ t > PIN_TIMEOUT := by
        simpa [inWindow] using hw
      rw [List.takeWhile_cons_of_pos hw] at hfew hne
      have hne' : rest.takeWhile inWindow ≠ rest := by
        intro hcontra; exact hne (by rw [hcontra])
      cases k with
      | none =>
        rw [readPinAux, if_neg ht]
        exact ih buf (by simpa [keysIn] using hfew) hne'
      | some c =>
        rw [readPinAux, if_neg ht]
        have hfew' :
            (keysIn (rest.takeWhile inWindow)).length + (buf ++ [c]).length
              < pinAmount := by
          simp only [keysIn, List.filterMap_cons] at hfew
          simp only [List.length_append, List.length_cons] at hfew ⊢
          simp [keysIn] at hfew ⊢
          omega
        have hl : ¬ buf.length + 1 = pinAmount := by
          simp only [List.length_append, List.length_singleton] at hfew'
          omega
        simp only [if_neg hl]
        exact ih (buf ++ [c]) hfew' hne'
    · have ht : t > PIN_TIMEOUT := by
        simp [inWindow] at hw; omega
      simp [readPinAux, ht]

/-- If enough keys arrive at checks within the window, the loop completes the
buffer and reports `entered`. -/
theorem readPinAux_entered_of_enough_keys (tr : List (Nat × Option Char)) :
    ∀ buf, buf.length < pinAmount →
      pinAmount ≤ buf.length + (keysIn (tr.takeWhile inWindow)).length →
      ∃ b, (readPinAux tr buf).1 = .entered b := by
  induction tr with
  | nil =>
    intro buf hlt hge
    simp [keysIn] at hge
    omega
  | cons e rest ih =>
    intro buf hlt hge
    obtain ⟨t, k⟩ := e
    by_cases hw : inWindow (t, k)
    · have ht : ¬ t > PIN_TIMEOUT := by
        simpa [inWindow] using hw
      rw [List.takeWhile_cons_of_pos hw] at hge
      cases k with
      | none =>
        rw [readPinAux, if_neg ht]
        exact ih buf hlt (by simpa [keysIn] using hge)
      | some c =>
        rw [readPinAux, if_neg ht]
        by_cases hl : buf.length + 1 = pinAmount
        · exact ⟨buf ++ [c], by simp [hl]⟩
        · simp only [if_neg hl]
          refine ih (buf ++ [c]) ?_ ?_
          · simp only [List.length_append, List.length_singleton]
            omega
          · simp only [keysIn, List.filterMap_cons] at hge
            simp only [List.length_append, List.length_singleton]
            simp [keysIn] at hge ⊢
            omega
    · rw [List.takeWhile_cons_of_neg hw] at hge
      simp [keysIn] at hge
      omega

/-- If every check in the trace happens at or before the boundary, the loop
never times out: the deadline must be strictly exceeded. -/
theorem readPinAux_not_timedOut (tr : List (Nat × Option Char)) :
    ∀ buf, (∀ e ∈ tr, e.1 ≤ PIN_TIMEOUT) →
      (readPinAux tr buf).1 ≠ .timedOut := by
  induction tr with
  | nil => intro buf _ h; simp [readPinAux] at h
  | cons e rest ih =>
    intro buf hall
    obtain ⟨t, k⟩ := e
    have ht : ¬ t > PIN_TIMEOUT := by
      have := hall (t, k) (List.mem_cons_self _ _)
      omega
    have hall' : ∀ e ∈ rest, e.1 ≤ PIN_TIMEOUT := fun e he =>
      hall e (List.mem_cons_of_mem _ he)
    cases k with
    | none =>
      rw [readPinAux, if_neg ht]
      exact ih buf hall'
    | some c =>
      rw [readPinAux, if_neg ht]
      by_cases hl : buf.length + 1 = pinAmount
      · simp [hl]
      · simp only [if_neg hl]
        exact ih (buf ++ [c]) hall'

/-- Once the loop has reported `entered`, later polls are never examined:
appending anything to the trace cannot change the result. -/
theorem readPinAux_entered_append (tr : List (Nat × Option Char)) :
    ∀ ext buf b, (readPinAux tr buf).1 = .entered b →
      (readPinAux (tr ++ ext) buf).1 = .entered b := by
  induction tr with
  | nil => intro ext buf b h; simp [readPinAux] at h
  | cons e rest ih =>
    intro ext buf b h
    obtain ⟨t, k⟩ := e
    by_cases ht : t > PIN_TIMEOUT
    · simp [readPinAux, ht] at h
    · cases k with
      | none =>
        rw [readPinAux, if_neg ht] at h
        rw [List.cons_append, readPinAux, if_neg ht]
        exact ih ext buf b h
      | some c =>
        rw [readPinAux, if_neg ht] at h
        rw [List.cons_append, readPinAux, if_neg ht]
        by_cases hl : buf.length + 1 = pinAmount
        · simpa [hl] using h
        · simp only [if_neg hl] at h ⊢
          exact ih ext (buf ++ [c]) b h

/-! ### Lemmas about the indicator outputs -/

/-- The invariant at the head of a trace. -/
theorem ledOk_of_ledInv (s : LedState) (evs : List Ev)
    (h : ledInv s evs = true) : ledOk s = true := by
  cases evs with
  | nil => exact h
  | cons e rest => exact (Bool.and_eq_true_iff.mp h).1

/-- Function `ledRun` distributes over append. -/
theorem ledRun_append (s : LedState) (a b : List Ev) :
    ledRun s (a ++ b) = ledRun (ledRun s a) b := by
  simp only [ledRun]
  exact List.foldl_append ledStep s a b

/-- The invariant on a concatenation splits at the junction state. -/
theorem ledInv_append (a : List Ev) :
    ∀ (s : LedState) (b : List Ev),
      ledInv s (a ++ b) = true ↔
        (ledInv s a = true ∧ ledInv (ledRun s a) b = true) := by
  induction a with
  | nil =>
    intro s b
    constructor
    · intro h
      exact ⟨ledOk_of_ledInv s b h, h⟩
    · intro h
      exact h.2
  | cons e rest ih =>
    intro s b
    have h1 : ledInv s ((e :: rest) ++ b)
        = (ledOk s && ledInv (ledStep s e) (rest ++ b)) := rfl
    have h2 : ledInv s (e :: rest)
        = (ledOk s && ledInv (ledStep s e) rest) := rfl
    have h3 : ledRun s (e :: rest) = ledRun (ledStep s e) rest := rfl
    rw [h1, h2, h3, Bool.and_eq_true_iff, Bool.and_eq_true_iff,
      ih (ledStep s e) b]
    tauto

/-- Events that never touch an LED leave the indicator state unchanged. -/
theorem ledRun_ledFree (evs : List Ev) :
    ∀ s : LedState, ledFree evs = true → ledRun s evs = s := by
  induction evs with
  | nil => intro s _; rfl
  | cons e rest ih =>
    intro s hfree
    simp only [ledFree, List.all_cons, Bool.and_eq_true_iff] at hfree
    have hstep : ledStep s e = s := by
      cases e <;> simp_all [isLedEv, ledStep]
    have : ledRun s (e :: rest) = ledRun (ledStep s e) rest := rfl
    rw [this, hstep]
    exact ih s (by simpa [ledFree] using hfree.2)

/-- Events that never touch an LED preserve the invariant. -/
theorem ledInv_ledFree (evs : List Ev) :
    ∀ s : LedState, ledFree evs = true → ledOk s = true →
      ledInv s evs = true := by
  induction evs with
  | nil => intro s _ hok; exact hok
  | cons e rest ih =>
    intro s hfree hok
    simp only [ledFree, List.all_cons, Bool.and_eq_true_iff] at hfree
    have hstep : ledStep s e = s := by
      cases e <;> simp_all [isLedEv, ledStep]
    simp only [ledInv, Bool.and_eq_true_iff, hstep]
    exact ⟨hok, ih s (by simpa [ledFree] using hfree.2) hok⟩

/-- Predicate `ledFree` distributes over append. -/
theorem ledFree_append (a b : List Ev) :
    ledFree (a ++ b) = (ledFree a && ledFree b) :=
  List.all_append

/-- The key-press feedback of the PIN loop never touches an LED. -/
theorem readPinAux_ledFree (tr : List (Nat × Option Char)) :
    ∀ buf, ledFree (readPinAux tr buf).2 = true := by
  induction tr with
  | nil => intro buf; rfl
  | cons e rest ih =>
    intro buf
    obtain ⟨t, k⟩ := e
    by_cases ht : t > PIN_TIMEOUT
    · simp [readPinAux, ht, ledFree]
    · cases k with
      | none =>
        rw [readPinAux, if_neg ht]
        exact ih buf
      | some c =>
        rw [readPinAux, if_neg ht]
        by_cases hl : buf.length + 1 = pinAmount
        · simp [hl, keyFeedback, ledFree, isLedEv]
        · simp only [if_neg hl]
          rw [ledFree_append]
          have := ih (buf ++ [c])
          simp [keyFeedback, ledFree, isLedEv] at this ⊢
          exact this

/-- The greeting never touches an LED, whatever the user's name is. -/
theorem greetingFeedback_ledFree (n : String) :
    ledFree (greetingFeedback n) = true := by
  simp [greetingFeedback, ledFree, isLedEv]

/-- An LED-free preamble followed by a self-cancelling tail keeps the
invariant and restores both indicators to low. -/
theorem led_segment (pre tail : List Ev)
    (hfree : ledFree pre = true)
    (hinv : ledInv ⟨false, false⟩ tail = true)
    (hrun : ledRun ⟨false, false⟩ tail = ⟨false, false⟩) :
    ledInv ⟨false, false⟩ (pre ++ tail) = true ∧
      ledRun ⟨false, false⟩ (pre ++ tail) = ⟨false, false⟩ := by
  have hpre : ledRun ⟨false, false⟩ pre = ⟨false, false⟩ :=
    ledRun_ledFree pre _ hfree
  constructor
  · rw [ledInv_append]
    exact ⟨ledInv_ledFree pre _ hfree (by decide), by rw [hpre]; exact hinv⟩
  · rw [ledRun_append, hpre, hrun]

/-- The preamble of every resolved session — card-read tone, greeting, and
the key-press feedback of the PIN loop — never touches an LED. -/
theorem session_preamble_ledFree (n : String) (tr : List (Nat × Option Char)) :
    ledFree (cardReadFeedback ++ (greetingFeedback n ++ (readPinAux tr []).2))
      = true := by
  rw [ledFree_append, ledFree_append]
  have h1 : ledFree cardReadFeedback = true := by decide
  have h2 := greetingFeedback_ledFree n
  have h3 := readPinAux_ledFree tr []
  simp [h1, h2, h3]

/-- Within any single `loop()` invocation started with both indicators low,
the mutual-exclusion invariant holds throughout and both indicators are low
again at the end. -/
theorem loopRun_led (inp : LoopInput) :
    ledInv ⟨false, false⟩ (loopRun inp).2 = true ∧
      ledRun ⟨false, false⟩ (loopRun inp).2 = ⟨false, false⟩ := by
  by_cases hc : inp.cardPresent = false
  · simp only [loopRun, if_pos hc]
    exact ⟨rfl, rfl⟩
  · by_cases hr : inp.readOk = false
    · simp only [loopRun, if_neg hc, if_pos hr]
      exact ⟨rfl, rfl⟩
    · cases hu : findUser users (scannedId inp.uid) with
      | none =>
        simp only [loopRun, if_neg hc, if_neg hr, hu]
        exact ⟨by decide, by decide⟩
      | some u =>
        simp only [loopRun, if_neg hc, if_neg hr, hu]
        cases hres : (readPinAux inp.keyTrace []).1 with
        | entered buf =>
          by_cases hpin : buf = u.pins
          · simp only [if_pos hpin]
            exact led_segment _ grantedFeedback
              (session_preamble_ledFree u.name inp.keyTrace)
              (by decide) (by decide)
          · simp only [if_neg hpin]
            exact led_segment _ deniedFeedback
              (session_preamble_ledFree u.name inp.keyTrace)
              (by decide) (by decide)
        | timedOut =>
          exact led_segment _ timeoutFeedback
            (session_preamble_ledFree u.name inp.keyTrace)
            (by decide) (by decide)
        | exhausted =>
          have hfree := session_preamble_ledFree u.name inp.keyTrace
          exact ⟨ledInv_ledFree _ _ hfree (by decide), ledRun_ledFree _ _ hfree⟩

/-- In a resolved session the event trace is the LED-free preamble followed
by one outcome-specific tail. -/
theorem loopRun_resolved_events (inp : LoopInput) (u : User)
    (hc : inp.cardPresent = true) (hr : inp.readOk = true)
    (hu : findUser users (scannedId inp.uid) = some u) :
    ∃ tail, (loopRun inp).2
      = (cardReadFeedback ++ (greetingFeedback u.name
          ++ (readPinAux inp.keyTrace []).2)) ++ tail := by
  have hc' : ¬ inp.cardPresent = false := by simp [hc]
  have hr' : ¬ inp.readOk = false := by simp [hr]
  simp only [loopRun, if_neg hc', if_neg hr', hu]
  cases hres : (readPinAux inp.keyTrace []).1 with
  | entered buf =>
    by_cases hpin : buf = u.pins
    · exact ⟨grantedFeedback, by simp [hpin, List.append_assoc]⟩
    · exact ⟨deniedFeedback, by simp [hpin, List.append_assoc]⟩
  | timedOut => exact ⟨timeoutFeedback, by simp [List.append_assoc]⟩
  | exhausted => exact ⟨[], by simp⟩

/-- The event stream of a run sequence splits attempt by attempt: nothing
computed in one `loop()` invocation is carried into the next. -/
theorem allEvents_cons (i : LoopInput) (rest : List LoopInput) :
    allEvents (i :: rest) = (loopRun i).2 ++ allEvents rest := by
  simp [allEvents]

/-- An LED-free event list contains no `ledWrite` at all. -/
theorem ledFree_not_mem (evs : List Ev) (h : ledFree evs = true)
    (l : Led) (b : Bool) : Ev.ledWrite l b ∉ evs := by
  intro hmem
  have := List.all_eq_true.mp h _ hmem
  simp [isLedEv] at this

/-- No `ledWrite` occurs in the preamble of a resolved session. -/
theorem preamble_no_ledWrite (n : String) (tr : List (Nat × Option Char))
    (l : Led) (b : Bool) :
    Ev.ledWrite l b
      ∉ cardReadFeedback ++ (greetingFeedback n ++ (readPinAux tr []).2) :=
  ledFree_not_mem _ (session_preamble_ledFree n tr) l b

/-! ### Dispatch equations for `loopRun` -/

/-- Running `loop()` with no card present: first early `return`. -/
theorem loopRun_noCard_eq (inp : LoopInput) (hc : inp.cardPresent = false) :
    loopRun inp = (.idleNoCard, []) := by
  simp [loopRun, hc]

/-- Running `loop()` with a failed serial read: second early `return`. -/
theorem loopRun_readFail_eq (inp : LoopInput) (hc : inp.cardPresent = true)
    (hr : inp.readOk = false) :
    loopRun inp = (.idleReadFail, []) := by
  simp [loopRun, hc, hr]

/-- Running `loop()` on an unrecognized card. -/
theorem loopRun_none_eq (inp : LoopInput) (hc : inp.cardPresent = true)
    (hr : inp.readOk = true)
    (hu : findUser users (scannedId inp.uid) = none) :
    loopRun inp = (.rejectedCard, cardReadFeedback ++ rejectedCardFeedback) := by
  simp [loopRun, hc, hr, hu]

/-- Running `loop()` on a resolved session whose PIN phase times out. -/
theorem loopRun_timedOut_eq (inp : LoopInput) (u : User)
    (hc : inp.cardPresent = true) (hr : inp.readOk = true)
    (hu : findUser users (scannedId inp.uid) = some u)
    (h : (readPinAux inp.keyTrace []).1 = .timedOut) :
    loopRun inp = (.timedOut,
      (cardReadFeedback ++ (greetingFeedback u.name
        ++ (readPinAux inp.keyTrace []).2)) ++ timeoutFeedback) := by
  simp [loopRun, hc, hr, hu, h, List.append_assoc]

/-- Running `loop()` on a resolved session whose collected buffer matches
the PIN. -/
theorem loopRun_accepted_eq (inp : LoopInput) (u : User) (buf : List Char)
    (hc : inp.cardPresent = true) (hr : inp.readOk = true)
    (hu : findUser users (scannedId inp.uid) = some u)
    (h : (readPinAux inp.keyTrace []).1 = .entered buf)
    (hpin : buf = u.pins) :
    loopRun inp = (.accepted,
      (cardReadFeedback ++ (greetingFeedback u.name
        ++ (readPinAux inp.keyTrace []).2)) ++ grantedFeedback) := by
  simp [loopRun, hc, hr, hu, h, hpin, List.append_assoc]

/-- Running `loop()` on a resolved session whose collected buffer differs
from the
PIN. -/
theorem loopRun_denied_eq (inp : LoopInput) (u : User) (buf : List Char)
    (hc : inp.cardPresent = true) (hr : inp.readOk = true)
    (hu : findUser users (scannedId inp.uid) = some u)
    (h : (readPinAux inp.keyTrace []).1 = .entered buf)
    (hpin : buf ≠ u.pins) :
    loopRun inp = (.rejectedPin,
      (cardReadFeedback ++ (greetingFeedback u.name
        ++ (readPinAux inp.keyTrace []).2)) ++ deniedFeedback) := by
  simp [loopRun, hc, hr, hu, h, hpin, List.append_assoc]

/-- Running `loop()` on a resolved session whose finite poll trace ran out
(model
artefact: the device itself polls forever). -/
theorem loopRun_exhausted_eq (inp : LoopInput) (u : User)
    (hc : inp.cardPresent = true) (hr : inp.readOk = true)
    (hu : findUser users (scannedId inp.uid) = some u)
    (h : (readPinAux inp.keyTrace []).1 = .exhausted) :
    loopRun inp = (.incomplete,
      cardReadFeedback ++ (greetingFeedback u.name
        ++ (readPinAux inp.keyTrace []).2)) := by
  simp [loopRun, hc, hr, hu, h, List.append_assoc]

/-! ### The claims -/

/-- C1: in every session with a resolved identity and exactly 4 collected
keys, the outcome is `accepted` when the buffer equals the stored PIN under
exact, case-sensitive, full-length, order-sensitive (list) equality, and
`rejectedPin` when it differs in at least one position. -/
theorem C1_pin_verdict (inp : LoopInput) (u : User) (buf : List Char)
    (hc : inp.cardPresent = true) (hr : inp.readOk = true)
    (hu : findUser users (scannedId inp.uid) = some u)
    (hb : (readPinAux inp.keyTrace []).1 = .entered buf) :
    buf.length = 4 ∧
      (buf = u.pins → (loopRun inp).1 = .accepted) ∧
      (buf ≠ u.pins → (loopRun inp).1 = .rejectedPin) := by
  refine ⟨readPinAux_entered_length inp.keyTrace [] buf hb, ?_, ?_⟩
  · intro hpin
    rw [loopRun_accepted_eq inp u buf hc hr hu hb hpin]
  · intro hpin
    rw [loopRun_denied_eq inp u buf hc hr hu hb hpin]

/-- Witness for C1: Alice's card followed by keys `1 2 3 4` is accepted. -/
theorem C1_pin_verdict_witness :
    (loopRun ⟨true, true, [0xB3, 0x29, 0xD7, 0x5],
        [(0, some '1'), (1, some '2'), (2, some '3'), (3, some '4')]⟩).1
      = Outcome.accepted :=
  (C1_pin_verdict
    ⟨true, true, [0xB3, 0x29, 0xD7, 0x5],
      [(0, some '1'), (1, some '2'), (2, some '3'), (3, some '4')]⟩
    alice ['1', '2', '3', '4'] rfl rfl (by decide) (by decide)).2.1 rfl

/-- C2: the identity-store scan returns the record whose fingerprint equals
the scanned bytes when one exists (exact, order-sensitive, byte-wise) and
none otherwise; on each provisioned fingerprint it returns exactly that
record. -/
theorem C2_lookup_contract :
    (∀ (F : List Nat) (u : User),
        findUser users F = some u → u ∈ users ∧ u.cardIDS = F) ∧
      (∀ F : List Nat,
        (∀ u ∈ users, u.cardIDS ≠ F) → findUser users F = none) ∧
      findUser users alice.cardIDS = some alice ∧
      findUser users bob.cardIDS = some bob :=
  ⟨fun F u h => findUser_mem users F u h,
   fun F h => findUser_eq_none users F h,
   by decide, by decide⟩

/-- Witness for C2: an unprovisioned fingerprint resolves to none. -/
theorem C2_lookup_witness : findUser users [0x01, 0x02, 0x03, 0x04] = none :=
  C2_lookup_contract.2.1 [0x01, 0x02, 0x03, 0x04] (by decide)

/-- C3: with a resolved identity, if fewer than 4 keys arrive at polls
checked within 7500 ms (and the trace reaches a later check), the outcome is
`timedOut`; if 4 keys arrive at checks at or before the boundary, evaluation
proceeds to PIN comparison; and the timeout fires only when the elapsed time
at a check strictly exceeds 7500 ms. -/
theorem C3_pin_timeout (inp : LoopInput) (u : User)
    (hc : inp.cardPresent = true) (hr : inp.readOk = true)
    (hu : findUser users (scannedId inp.uid) = some u) :
    ((keysIn (inp.keyTrace.takeWhile inWindow)).length < 4 →
        inp.keyTrace.takeWhile inWindow ≠ inp.keyTrace →
        (loopRun inp).1 = .timedOut) ∧
      (4 ≤ (keysIn (inp.keyTrace.takeWhile inWindow)).length →
        (loopRun inp).1 = .accepted ∨ (loopRun inp).1 = .rejectedPin) ∧
      ((∀ e ∈ inp.keyTrace, e.1 ≤ PIN_TIMEOUT) →
        (loopRun inp).1 ≠ .timedOut) := by
  refine ⟨?_, ?_, ?_⟩
  · intro hfew hne
    have h := readPinAux_timedOut_of_few_keys inp.keyTrace []
      (by simpa [pinAmount] using hfew) hne
    rw [loopRun_timedOut_eq inp u hc hr hu h]
  · intro hge
    obtain ⟨b, hb⟩ := readPinAux_entered_of_enough_keys inp.keyTrace []
      (by simp [pinAmount]) (by simpa [pinAmount] using hge)
    by_cases hpin : b = u.pins
    · left; rw [loopRun_accepted_eq inp u b hc hr hu hb hpin]
    · right; rw [loopRun_denied_eq inp u b hc hr hu hb hpin]
  · intro hall
    have h := readPinAux_not_timedOut inp.keyTrace [] hall
    cases hres : (readPinAux inp.keyTrace []).1 with
    | entered b =>
      by_cases hpin : b = u.pins
      · rw [loopRun_accepted_eq inp u b hc hr hu hres hpin]; simp
      · rw [loopRun_denied_eq inp u b hc hr hu hres hpin]; simp
    | timedOut => exact absurd hres h
    | exhausted => rw [loopRun_exhausted_eq inp u hc hr hu hres]; simp

/-- Witness for C3: Bob's card, one key, then a check past the deadline —
the session times out. -/
theorem C3_pin_timeout_witness :
    (loopRun ⟨true, true, [0x5E, 0xEE, 0x9C, 0x4],
        [(0, some 'A'), (7600, none)]⟩).1 = Outcome.timedOut :=
  (C3_pin_timeout
    ⟨true, true, [0x5E, 0xEE, 0x9C, 0x4], [(0, some 'A'), (7600, none)]⟩
    bob rfl rfl (by decide)).1 (by decide) (by decide)

/-- C4: every terminal outcome leaves both indicators deasserted and ends
with the display cleared.  (The entered-digit buffer and all other session
state are locals of `loop()` in the source and of `loopRun` in this model:
each attempt starts from the empty buffer by construction, so no session
state can persist across attempts.) -/
theorem C4_terminal_reset (inp : LoopInput)
    (h : terminal (loopRun inp).1 = true) :
    ledRun ⟨false, false⟩ (loopRun inp).2 = ⟨false, false⟩ ∧
      (loopRun inp).2.getLast? = some Ev.lcdClear := by
  refine ⟨(loopRun_led inp).2, ?_⟩
  by_cases hc : inp.cardPresent
  · by_cases hr : inp.readOk
    · cases hu : findUser users (scannedId inp.uid) with
      | none =>
        rw [loopRun_none_eq inp hc hr hu]
        decide
      | some u =>
        cases hres : (readPinAux inp.keyTrace []).1 with
        | entered buf =>
          by_cases hpin : buf = u.pins
          · rw [loopRun_accepted_eq inp u buf hc hr hu hres hpin]
            simp only []
            rw [List.getLast?_append_of_ne_nil _ (by decide)]
            decide
          · rw [loopRun_denied_eq inp u buf hc hr hu hres hpin]
            simp only []
            rw [List.getLast?_append_of_ne_nil _ (by decide)]
            decide
        | timedOut =>
          rw [loopRun_timedOut_eq inp u hc hr hu hres]
          simp only []
          rw [List.getLast?_append_of_ne_nil _ (by decide)]
          decide
        | exhausted =>
          rw [loopRun_exhausted_eq inp u hc hr hu hres] at h
          simp [terminal] at h
    · rw [loopRun_readFail_eq inp hc (by simpa using hr)] at h
      simp [terminal] at h
  · rw [loopRun_noCard_eq inp (by simpa using hc)] at h
    simp [terminal] at h

/-- Witness for C4: the accepted run on Alice's card ends with both
indicators low and a cleared display. -/
theorem C4_terminal_reset_witness :
    ledRun ⟨false, false⟩
        (loopRun ⟨true, true, [0xB3, 0x29, 0xD7, 0x5],
          [(0, some '1'), (1, some '2'), (2, some '3'), (3, some '4')]⟩).2
      = ⟨false, false⟩ ∧
      (loopRun ⟨true, true, [0xB3, 0x29, 0xD7, 0x5],
          [(0, some '1'), (1, some '2'), (2, some '3'), (3, some '4')]⟩).2.getLast?
        = some Ev.lcdClear :=
  C4_terminal_reset
    ⟨true, true, [0xB3, 0x29, 0xD7, 0x5],
      [(0, some '1'), (1, some '2'), (2, some '3'), (3, some '4')]⟩
    (by decide)

/-- C5 counterexample: Bob's provisioned PIN is `"ABCD"`, so a stored PIN
does contain non-digit characters — the claim as stated is false. -/
theorem C5_counterexample :
    bob ∈ users ∧ bob.pins = ['A', 'B', 'C', 'D']
      ∧ ('A'.isDigit = false)
      ∧ ¬ (∀ u ∈ users, ∀ c ∈ u.pins, c.isDigit = true) := by
  decide

/-- C5 amended: every provisioned PIN is a fixed-length sequence of 4
characters drawn from the 4×4 keypad matrix; Alice's is all digits, but
Bob's consists of the four auxiliary letter keys, which are therefore used
by the PIN logic. -/
theorem C5_pins_are_keypad_keys :
    ∀ u ∈ users, u.pins.length = 4 ∧ ∀ c ∈ u.pins, c ∈ keys.flatten := by
  decide

/-- Witness for C5 (amended): Alice's record. -/
theorem C5_pins_witness :
    alice.pins.length = 4 ∧ ∀ c ∈ alice.pins, c ∈ keys.flatten :=
  C5_pins_are_keypad_keys alice (by decide)

/-- C6: card presence with a failed fingerprint read leaves the controller
idle with an empty event trace — no tone, no display write, no indicator
change, no session. -/
theorem C6_transient_read_failure (inp : LoopInput)
    (hc : inp.cardPresent = true) (hr : inp.readOk = false) :
    loopRun inp = (.idleReadFail, []) :=
  loopRun_readFail_eq inp hc hr

/-- Witness for C6. -/
theorem C6_transient_read_failure_witness :
    loopRun ⟨true, false, [0xB3, 0x29, 0xD7, 0x5], []⟩
      = (Outcome.idleReadFail, []) :=
  C6_transient_read_failure ⟨true, false, [0xB3, 0x29, 0xD7, 0x5], []⟩ rfl rfl

/-- C7: when lookup returns none, the full feedback sequence is exactly:
read tone, then display "UNAUTHORIZED", low 200 Hz tone with the negative
(red) indicator asserted, 800 ms of tone, 2500 ms further hold, indicator
deasserted, display cleared. -/
theorem C7_rejected_card_feedback (inp : LoopInput)
    (hc : inp.cardPresent = true) (hr : inp.readOk = true)
    (hu : findUser users (scannedId inp.uid) = none) :
    loopRun inp = (.rejectedCard,
      [Ev.toneOn 1800, Ev.delay 100, Ev.toneOff,
       Ev.lcdClear, Ev.lcdPrint "UNAUTHORIZED", Ev.toneOn 200,
       Ev.ledWrite Led.red true, Ev.delay 800, Ev.toneOff, Ev.delay 2500,
       Ev.ledWrite Led.red false, Ev.lcdClear]) := by
  rw [loopRun_none_eq inp hc hr hu]
  decide

/-- Witness for C7: the unknown fingerprint of spec Scenario 3. -/
theorem C7_rejected_card_feedback_witness :
    loopRun ⟨true, true, [0x01, 0x02, 0x03, 0x04], []⟩
      = (Outcome.rejectedCard,
        [Ev.toneOn 1800, Ev.delay 100, Ev.toneOff,
         Ev.lcdClear, Ev.lcdPrint "UNAUTHORIZED", Ev.toneOn 200,
         Ev.ledWrite Led.red true, Ev.delay 800, Ev.toneOff, Ev.delay 2500,
         Ev.ledWrite Led.red false, Ev.lcdClear]) :=
  C7_rejected_card_feedback ⟨true, true, [0x01, 0x02, 0x03, 0x04], []⟩
    rfl rfl (by decide)

/-- C8: the deadline is evaluated before each key poll and never
asynchronously — a poll whose preceding check is past the deadline yields
`timedOut` even if that poll would have returned a key — and once the 4th
key is collected no further check occurs: extending the poll trace (with
checks arbitrarily far past the deadline) cannot change an `entered`
result. -/
theorem C8_timeout_check_policy :
    (∀ (t : Nat) (k : Option Char) (rest : List (Nat × Option Char))
        (buf : List Char), t > PIN_TIMEOUT →
        (readPinAux ((t, k) :: rest) buf).1 = .timedOut) ∧
      (∀ (tr ext : List (Nat × Option Char)) (b : List Char),
        readPinTrace tr = .entered b →
        readPinTrace (tr ++ ext) = .entered b) := by
  constructor
  · intro t k rest buf ht
    cases k <;> simp [readPinAux, ht]
  · intro tr ext b h
    exact readPinAux_entered_append tr ext [] b h

/-- Witness for C8: a late check times out even though its poll carried a
key, and a completed entry survives any appended polls. -/
theorem C8_timeout_check_policy_witness :
    (readPinAux [(7501, some '1')] []).1 = PinEntryResult.timedOut ∧
      readPinTrace [(0, some '1'), (1, some '2'), (2, some '3'),
          (3, some '4'), (9000, none)]
        = PinEntryResult.entered ['1', '2', '3', '4'] :=
  ⟨C8_timeout_check_policy.1 7501 (some '1') [] [] (by decide),
   C8_timeout_check_policy.2
     [(0, some '1'), (1, some '2'), (2, some '3'), (3, some '4')]
     [(9000, none)] ['1', '2', '3', '4'] (by decide)⟩

/-- C9: resolution reads exactly the first 4 reader-supplied UID bytes: any
extra UID bytes are ignored, and a card whose first 4 bytes match a record
resolves that identity (its greeting is shown) and enters the PIN phase
(the PIN prompt is shown). -/
theorem C9_uid_truncation (uid ext : List Nat) (tr : List (Nat × Option Char))
    (u : User) (hlen : 4 ≤ uid.length)
    (hu : findUser users (uid.take 4) = some u) :
    scannedId (uid ++ ext) = scannedId uid ∧
      Ev.lcdPrint u.name ∈ (loopRun ⟨true, true, uid ++ ext, tr⟩).2 ∧
      Ev.lcdPrint "Enter Pin: " ∈ (loopRun ⟨true, true, uid ++ ext, tr⟩).2 := by
  have htake : scannedId (uid ++ ext) = scannedId uid := by
    simp [scannedId, List.take_append_of_le_length hlen]
  have hu' :
      findUser users
        (scannedId (⟨true, true, uid ++ ext, tr⟩ : LoopInput).uid) = some u := by
    rw [show (⟨true, true, uid ++ ext, tr⟩ : LoopInput).uid = uid ++ ext
      from rfl, htake]
    exact hu
  obtain ⟨tail, htail⟩ :=
    loopRun_resolved_events ⟨true, true, uid ++ ext, tr⟩ u rfl rfl hu'
  refine ⟨htake, ?_, ?_⟩ <;>
    · rw [htail]
      simp [cardReadFeedback, greetingFeedback]

/-- Witness for C9: a 7-byte UID whose first 4 bytes are Alice's fingerprint
resolves to Alice. -/
theorem C9_uid_truncation_witness :
    Ev.lcdPrint "Alice" ∈ (loopRun ⟨true, true,
        [0xB3, 0x29, 0xD7, 0x5, 0xAA, 0xBB, 0xCC], []⟩).2 :=
  (C9_uid_truncation [0xB3, 0x29, 0xD7, 0x5] [0xAA, 0xBB, 0xCC] [] alice
    (by decide) (by decide)).2.1

/-- C10: starting from both indicators low, across any sequence of `loop()`
invocations the mutual-exclusion invariant (never both indicators high)
holds before and after every event; moreover the positive (green) indicator
is asserted only in an `accepted` run and the negative (red) indicator only
in a `rejectedCard`, `timedOut` or `rejectedPin` run. -/
theorem C10_indicator_exclusivity :
    (∀ inps : List LoopInput, ledInv ⟨false, false⟩ (allEvents inps) = true) ∧
      (∀ inp : LoopInput, Ev.ledWrite Led.green true ∈ (loopRun inp).2 →
        (loopRun inp).1 = Outcome.accepted) ∧
      (∀ inp : LoopInput, Ev.ledWrite Led.red true ∈ (loopRun inp).2 →
        (loopRun inp).1 = Outcome.rejectedCard
          ∨ (loopRun inp).1 = Outcome.timedOut
          ∨ (loopRun inp).1 = Outcome.rejectedPin) := by
  refine ⟨?_, ?_, ?_⟩
  · intro inps
    induction inps with
    | nil => decide
    | cons i rest ih =>
      rw [allEvents_cons, ledInv_append]
      exact ⟨(loopRun_led i).1, by rw [(loopRun_led i).2]; exact ih⟩
  · intro inp hmem
    by_cases hc : inp.cardPresent
    · by_cases hr : inp.readOk
      · cases hu : findUser users (scannedId inp.uid) with
        | none =>
          rw [loopRun_none_eq inp hc hr hu] at hmem
          simp [cardReadFeedback, rejectedCardFeedback] at hmem
        | some u =>
          cases hres : (readPinAux inp.keyTrace []).1 with
          | entered buf =>
            by_cases hpin : buf = u.pins
            · rw [loopRun_accepted_eq inp u buf hc hr hu hres hpin]
            · rw [loopRun_denied_eq inp u buf hc hr hu hres hpin] at hmem
              rcases List.mem_append.mp hmem with hm | hm
              · exact absurd hm (preamble_no_ledWrite u.name inp.keyTrace _ _)
              · simp [deniedFeedback] at hm
          | timedOut =>
            rw [loopRun_timedOut_eq inp u hc hr hu hres] at hmem
            rcases List.mem_append.mp hmem with hm | hm
            · exact absurd hm (preamble_no_ledWrite u.name inp.keyTrace _ _)
            · simp [timeoutFeedback] at hm
          | exhausted =>
            rw [loopRun_exhausted_eq inp u hc hr hu hres] at hmem
            exact absurd hmem (preamble_no_ledWrite u.name inp.keyTrace _ _)
      · rw [loopRun_readFail_eq inp hc (by simpa using hr)] at hmem
        simp at hmem
    · rw [loopRun_noCard_eq inp (by simpa using hc)] at hmem
      simp at hmem
  · intro inp hmem
    by_cases hc : inp.cardPresent
    · by_cases hr : inp.readOk
      · cases hu : findUser users (scannedId inp.uid) with
        | none =>
          rw [loopRun_none_eq inp hc hr hu]
          left; rfl
        | some u =>
          cases hres : (readPinAux inp.keyTrace []).1 with
          | entered buf =>
            by_cases hpin : buf = u.pins
            · rw [loopRun_accepted_eq inp u buf hc hr hu hres hpin] at hmem
              rcases List.mem_append.mp hmem with hm | hm
              · exact absurd hm (preamble_no_ledWrite u.name inp.keyTrace _ _)
              · simp [grantedFeedback] at hm
            · rw [loopRun_denied_eq inp u buf hc hr hu hres hpin]
              right; right; rfl
          | timedOut =>
            rw [loopRun_timedOut_eq inp u hc hr hu hres]
            right; left; rfl
          | exhausted =>
            rw [loopRun_exhausted_eq inp u hc hr hu hres] at hmem
            exact absurd hmem (preamble_no_ledWrite u.name inp.keyTrace _ _)
      · rw [loopRun_readFail_eq inp hc (by simpa using hr)] at hmem
        simp at hmem
    · rw [loopRun_noCard_eq inp (by simpa using hc)] at hmem
      simp at hmem

/-- Witness for C10: the accepted run asserts the green indicator, and its
outcome is indeed `accepted`. -/
theorem C10_indicator_exclusivity_witness :
    ledInv ⟨false, false⟩
        (allEvents [⟨true, true, [0xB3, 0x29, 0xD7, 0x5],
          [(0, some '1'), (1, some '2'), (2, some '3'), (3, some '4')]⟩])
      = true ∧
      (loopRun ⟨true, true, [0xB3, 0x29, 0xD7, 0x5],
          [(0, some '1'), (1, some '2'), (2, some '3'), (3, some '4')]⟩).1
        = Outcome.accepted :=
  ⟨C10_indicator_exclusivity.1
    [⟨true, true, [0xB3, 0x29, 0xD7, 0x5],
      [(0, some '1'), (1, some '2'), (2, some '3'), (3, some '4')]⟩],
   C10_indicator_exclusivity.2.1
    ⟨true, true, [0xB3, 0x29, 0xD7, 0x5],
      [(0, some '1'), (1, some '2'), (2, some '3'), (3, some '4')]⟩
    (by decide)⟩

end RFIDAuth
